import Mathlib

/-!
Verification development for the RPG.SE Chat Fudge Dice userscript
(src/index.user.js). The script's core is embedded shallowly:

* `FudgeScore` / `FudgeUtil` embed the frozen score enumeration and the
  pure score-mapping functions `d6toFudge` and `displayScore`.
* `Widget` models one six-sided-die DOM node: its class list, the
  textContent of its descendant `.dot` elements, its attributes and the
  overlay children appended by the script.  `scanList` embeds
  `ChatService.scan` acting on a list of such nodes.
* `debounceRun` embeds the event-loop behaviour of the `debounce`
  wrapper (trailing edge, `immediate` unset) on a strictly increasing
  sequence of call times.
* `UserConfigState` together with `UserConfig.save` / `UserConfig.load` /
  `UserConfig.activateRoom` / `UserConfig.deactivateRoom` embeds the
  persisted configuration record; the key/value store itself is treated
  as an opaque slot holding the serialized record.
* `LiveScanState` with `observerCallback` / `timerFire` embeds the
  control flow of `ChatService.startLiveScan`: the MutationObserver
  callback wraps only the synchronous debounce wrapper in try/catch,
  while the scan itself runs later inside the timer callback.
-/

/- Fudge score values, from the frozen `FudgeScore` object: numeric
constants `Minus = -1`, `Zero = 0`, `Plus = 1`. -/
namespace FudgeScore

def Minus : Int := -1

def Zero : Int := 0

def Plus : Int := 1

end FudgeScore

namespace FudgeUtil

/-- `FudgeUtil.d6toFudge(num)`: `num >= 5` gives Plus, else `num <= 2`
gives Minus, else Zero. -/
def d6toFudge (num : Int) : Int :=
  if 5 ≤ num then FudgeScore.Plus
  else if num ≤ 2 then FudgeScore.Minus
  else FudgeScore.Zero

/-- `FudgeUtil.displayScore(score)`: Minus and Plus map to the HTML
entity strings, anything else to the empty string. -/
def displayScore (score : Int) : String :=
  if score = FudgeScore.Minus then "&minus;"
  else if score = FudgeScore.Plus then "&plus;"
  else ""

end FudgeUtil

namespace HtmlClass

def FudgeRoot : String := "fudge-running"

def FudgeOn : String := "fudge--on"

def FudgeColorsOn : String := "fudge-colors--on"

def FudgeDie : String := "fudge-die"

def FudgeDieFace : String := "fudge-die-face"

def FudgeDieFaceSymbol : String := "fudge-die-face-symbol"

/-- The scan writes the d6 score with `die.setAttribute(HtmlClass.DataD6Score, ...)`,
but the frozen `HtmlClass` object has no `DataD6Score` property (it lives on
`HtmlAttribute`), so the access yields `undefined` and `setAttribute` coerces
the attribute name to the string "undefined". -/
def DataD6Score : String := "undefined"

end HtmlClass

namespace HtmlAttribute

def DataD6Score : String := "data-d6-score"

def DataFudgeScore : String := "data-fudge-score"

end HtmlAttribute

/-- The overlay child appended to each die by the scan: a
`.fudge-die-face` div holding one `.fudge-die-face-symbol` span. -/
structure Overlay where
  symbolHtml : String
  title : String
deriving DecidableEq, Repr

/-- One die widget node: its class list, the textContent of its
descendant `.dot` elements, its attribute map and its appended
overlay children. -/
structure Widget where
  classes : List String
  dots : List String
  attrs : List (String × String)
  overlays : List Overlay
deriving DecidableEq, Repr

/-- `classList.add`: a DOMTokenList is a set, so adding an existing
token is a no-op. -/
def addClass (cs : List String) (c : String) : List String :=
  if cs.contains c then cs else cs ++ [c]

/-- `setAttribute`: replaces the value of an existing attribute name,
otherwise appends the pair. -/
def setAttr (attrs : List (String × String)) (k v : String) : List (String × String) :=
  if attrs.any (fun p => p.1 == k) then
    attrs.map (fun p => if p.1 == k then (k, v) else p)
  else
    attrs ++ [(k, v)]

/-- `getAttribute`: first binding for the name, if any. -/
def getAttr (attrs : List (String × String)) (k : String) : Option String :=
  (attrs.find? (fun p => p.1 == k)).map Prod.snd

/-- JS `text.includes('•')`: the needle is the single character U+2022,
so substring containment is occurrence of that character in the text. -/
def includesBullet (text : String) : Bool :=
  text.data.contains '•'

/-- The pip count computed per die:
`Array.from(die.querySelectorAll('.dot')).map(dot => dot.textContent).filter(text => text.includes('•')).length`. -/
def countPips (die : Widget) : Nat :=
  (die.dots.filter (fun text => includesBullet text)).length

/-- The per-die body of `ChatService.scan`, after the early-return guard:
mark processed, count pips, classify, set the two data attributes, and
append the overlay face with the glyph and the "Rolled N" tooltip. -/
def annotateDie (die : Widget) : Widget :=
  let die := { die with classes := addClass die.classes HtmlClass.FudgeDie }
  let d6score : Nat := countPips die
  let fudgeScore : Int := FudgeUtil.d6toFudge d6score
  let fudgeDisplay : String := FudgeUtil.displayScore fudgeScore
  let die := { die with attrs := setAttr die.attrs HtmlClass.DataD6Score (toString d6score) }
  let die := { die with attrs := setAttr die.attrs HtmlAttribute.DataFudgeScore (toString fudgeScore) }
  { die with overlays := die.overlays ++ [{ symbolHtml := fudgeDisplay, title := "Rolled " ++ toString d6score }] }

/-- The selector `.six-sided-die:not(.fudge-die)`. -/
def scanSelected (w : Widget) : Bool :=
  w.classes.contains "six-sided-die" && !(w.classes.contains HtmlClass.FudgeDie)

/-- The forEach body: the redundant re-check of the processed marker,
then the per-die transformation. -/
def processDie (die : Widget) : Widget :=
  if die.classes.contains HtmlClass.FudgeDie then die else annotateDie die

/-- The effect of one scan pass on one document node: nodes matched by
the selector `.six-sided-die:not(.fudge-die)` are transformed by the
forEach body, all others are untouched. -/
def scanStep (w : Widget) : Widget :=
  if scanSelected w then processDie w else w

/-- `ChatService.scan` over a list of document nodes. -/
def scanList (dom : List Widget) : List Widget :=
  dom.map scanStep

/-- The document, split into the widgets under the chat root container
and the widgets elsewhere.  `ChatService.scan` queries with
`document.querySelectorAll`, i.e. over the whole document, so a pass
transforms both parts alike. -/
structure ChatDocument where
  rootWidgets : List Widget
  outsideWidgets : List Widget
deriving DecidableEq, Repr

/-- One `ChatService.scan` pass over the document. -/
def scanDocument (d : ChatDocument) : ChatDocument :=
  { rootWidgets := scanList d.rootWidgets, outsideWidgets := scanList d.outsideWidgets }

/-- The chat root container: its class list and the widgets below it. -/
structure ChatRoot where
  classes : List String
  widgets : List Widget
deriving DecidableEq, Repr

/-- `ChatService.init`: if `ChatUtil.getChatElement()` resolves to no
element, the error is logged and `Error('Failed to initialise
ChatService')` is thrown; otherwise the root is marked with the
`fudge-running` class and the first scan is scheduled. -/
def chatServiceInit (chatElement : Option ChatRoot) : Except String ChatRoot :=
  match chatElement with
  | none => Except.error "Failed to initialise ChatService"
  | some chat => Except.ok { chat with classes := addClass chat.classes HtmlClass.FudgeRoot }

/- Event-loop model of `debounce(func, wait)` with `immediate` unset
(the only mode `ChatService` uses: `debounce(() => this.scan(), 50)`).
The closure holds one pending timeout deadline.  A call at time `t`
first lets a pending timeout whose deadline has already passed fire,
then does `clearTimeout` and `setTimeout(..., wait)`, arming a new
deadline `t + wait`.  A call arriving at or before the pending deadline
therefore resets the window.  `debounceRun` consumes the strictly
increasing call times and returns the times at which `func` fires. -/
def debounceRun (wait : Nat) : Option Nat → List Nat → List Nat
  | none, [] => []
  | some d, [] => [d]
  | none, t :: rest => debounceRun wait (some (t + wait)) rest
  | some d, t :: rest =>
      if d < t then d :: debounceRun wait (some (t + wait)) rest
      else debounceRun wait (some (t + wait)) rest

/-- The fire times of the debounced scan for a sequence of trigger
calls, starting with no pending timer. -/
def debounceFires (wait : Nat) (calls : List Nat) : List Nat :=
  debounceRun wait none calls

/-- A burst: consecutive trigger calls strictly increase in time and
each falls within the debounce window of its predecessor. -/
def burstCalls (wait : Nat) : List Nat → Bool
  | [] => true
  | [_] => true
  | a :: b :: rest => (a < b && b ≤ a + wait) && burstCalls wait (b :: rest)

/-- Spaced calls: each trigger call arrives strictly beyond the debounce
window of its predecessor. -/
def spacedCalls (wait : Nat) : List Nat → Bool
  | [] => true
  | [_] => true
  | a :: b :: rest => (a + wait < b) && spacedCalls wait (b :: rest)

/-- The persisted configuration record held by `UserConfig`. -/
structure UserConfigState where
  useColors : Bool
  plusColor : String
  minusColor : String
  rooms : List String
deriving DecidableEq, Repr

/-- The serialized record in the `fudgeConfig` localStorage slot; each
field is optional because `load` guards every field with `??`. -/
structure SerializedConfig where
  useColors : Option Bool
  plusColor : Option String
  minusColor : Option String
  rooms : Option (List String)
deriving DecidableEq, Repr

namespace UserConfig

/-- The constructor defaults: colors off, `#008800` / `#CC0000`, and the
two default active rooms (Fate chat room, TRPG General chat). -/
def defaultConfig : UserConfigState :=
  { useColors := false, plusColor := "#008800", minusColor := "#CC0000", rooms := ["8403", "11"] }

/-- `UserConfig.save`: serialize all four fields into the store slot.
The JSON string layer is the opaque persistence collaborator; the slot
is modelled as holding the serialized record itself. -/
def save (c : UserConfigState) : SerializedConfig :=
  { useColors := some c.useColors
    plusColor := some c.plusColor
    minusColor := some c.minusColor
    rooms := some c.rooms }

/-- `UserConfig.load`: read the stored record and take each field,
falling back (`??`) to the field already in memory when absent. -/
def load (c : UserConfigState) (stored : SerializedConfig) : UserConfigState :=
  { useColors := stored.useColors.getD c.useColors
    plusColor := stored.plusColor.getD c.plusColor
    minusColor := stored.minusColor.getD c.minusColor
    rooms := stored.rooms.getD c.rooms }

/-- `UserConfig.isActiveHere`: `this.rooms.includes(ChatUtil.roomId)`,
with the ambient room id made an explicit argument. -/
def isActiveHere (c : UserConfigState) (roomId : String) : Bool :=
  c.rooms.contains roomId

/-- `UserConfig.activateRoom`: return unchanged when the room is already
active, otherwise push the room id. -/
def activateRoom (c : UserConfigState) (roomId : String) : UserConfigState :=
  if isActiveHere c roomId then c
  else { c with rooms := c.rooms ++ [roomId] }

/-- `UserConfig.deactivateRoom`: filter the room id out of the set. -/
def deactivateRoom (c : UserConfigState) (roomId : String) : UserConfigState :=
  { c with rooms := c.rooms.filter (fun id => id != roomId) }

end UserConfig

/-- Observable state of `ChatService.startLiveScan`: whether the
MutationObserver is still connected, whether a debounce timer is
pending, how many times `Log.error` ran in the catch handler, and
whether an exception escaped to the top of the event loop. -/
structure LiveScanState where
  connected : Bool
  timerPending : Bool
  errorReports : Nat
  uncaughtException : Bool
deriving DecidableEq, Repr

def initialLiveScanState : LiveScanState :=
  { connected := true, timerPending := false, errorReports := 0, uncaughtException := false }

/-- The synchronous call `this.debouncedScan()`: the debounce wrapper
body runs `clearTimeout` and `setTimeout`, arming the timer; neither
statement can throw, so the call always returns normally — the scan
itself runs later, inside the timer callback. -/
def debouncedScanCall (s : LiveScanState) : Except String LiveScanState :=
  Except.ok { s with timerPending := true }

/-- The MutationObserver callback of `startLiveScan`: `try {
this.debouncedScan() } catch (e) { Log.error(...); obs.disconnect() }`. -/
def observerCallback (s : LiveScanState) : LiveScanState :=
  match debouncedScanCall s with
  | Except.ok s' => s'
  | Except.error _ =>
      { s with connected := false, errorReports := s.errorReports + 1 }

/-- The debounce timer firing: the timeout handle is cleared and
`func` — here `() => this.scan()` — runs at the top of the event loop,
with no enclosing try/catch.  `scanThrows` says whether this pass
throws; if it does, the exception is uncaught. -/
def timerFire (scanThrows : Bool) (s : LiveScanState) : LiveScanState :=
  if s.timerPending then
    let s' := { s with timerPending := false }
    if scanThrows then { s' with uncaughtException := true } else s'
  else s

/-- An unprocessed die widget showing one pip. -/
def dieOne : Widget :=
  { classes := ["six-sided-die"], dots := ["•"], attrs := [], overlays := [] }

/-- An unprocessed die widget showing six pips. -/
def dieSix : Widget :=
  { classes := ["six-sided-die"], dots := ["•", "•", "•", "•", "•", "•"], attrs := [], overlays := [] }

/-- A die widget showing three pips that already carries the processed
marker class. -/
def dieMarkedThree : Widget :=
  { classes := ["six-sided-die", "fudge-die"], dots := ["•", "•", "•"], attrs := [], overlays := [] }

/-- A die widget whose dot markup is malformed: one dot with stray text
and one empty dot, neither containing the pip character. -/
def dieMalformed : Widget :=
  { classes := ["six-sided-die"], dots := ["x", ""], attrs := [], overlays := [] }

/-! ## Theorems -/

/-- C2: the score classification maps `p ≤ 2` to Minus, `p ≥ 5` to Plus
and everything between to Zero, with the listed concrete values, and
out-of-range values above 6 still map to Plus. -/
theorem d6toFudge_classification (p : Int) :
    (p ≤ 2 → FudgeUtil.d6toFudge p = FudgeScore.Minus) ∧
    (5 ≤ p → FudgeUtil.d6toFudge p = FudgeScore.Plus) ∧
    (2 < p → p < 5 → FudgeUtil.d6toFudge p = FudgeScore.Zero) ∧
    FudgeUtil.d6toFudge 0 = FudgeScore.Minus ∧
    FudgeUtil.d6toFudge 3 = FudgeScore.Zero ∧
    FudgeUtil.d6toFudge 4 = FudgeScore.Zero ∧
    FudgeUtil.d6toFudge 6 = FudgeScore.Plus ∧
    (6 < p → FudgeUtil.d6toFudge p = FudgeScore.Plus) := by
  refine ⟨fun h => ?_, fun h => ?_, fun h1 h2 => ?_, by decide, by decide, by decide,
    by decide, fun h => ?_⟩ <;>
  · simp only [FudgeUtil.d6toFudge]
    split_ifs <;> first | rfl | (exfalso; omega)

/-- C2 witness: the classification theorem applied at pip counts 1, 5,
3 and 9. -/
theorem d6toFudge_classification_witness :
    FudgeUtil.d6toFudge 1 = FudgeScore.Minus ∧
    FudgeUtil.d6toFudge 5 = FudgeScore.Plus ∧
    FudgeUtil.d6toFudge 3 = FudgeScore.Zero ∧
    FudgeUtil.d6toFudge 9 = FudgeScore.Plus :=
  ⟨(d6toFudge_classification 1).1 (by decide),
   (d6toFudge_classification 5).2.1 (by decide),
   (d6toFudge_classification 3).2.2.1 (by decide) (by decide),
   (d6toFudge_classification 9).2.2.2.2.2.2.2 (by decide)⟩

/-- C10: the classification is total over all integers — every input
lands in the closed outcome set — and every negative integer maps to
Minus. -/
theorem d6toFudge_total_negative (n : Int) :
    (n < 0 → FudgeUtil.d6toFudge n = FudgeScore.Minus) ∧
    (FudgeUtil.d6toFudge n = FudgeScore.Minus ∨ FudgeUtil.d6toFudge n = FudgeScore.Zero ∨
      FudgeUtil.d6toFudge n = FudgeScore.Plus) := by
  constructor
  · intro h
    simp only [FudgeUtil.d6toFudge]
    split_ifs <;> first | rfl | (exfalso; omega)
  · simp only [FudgeUtil.d6toFudge]
    split_ifs <;> simp

/-- C10 witness: the totality theorem applied at `-3`. -/
theorem d6toFudge_total_negative_witness :
    FudgeUtil.d6toFudge (-3) = FudgeScore.Minus :=
  (d6toFudge_total_negative (-3)).1 (by decide)

theorem mem_addClass (cs : List String) (c : String) : c ∈ addClass cs c := by
  unfold addClass
  split
  · next h => simpa using h
  · simp

theorem annotateDie_classes (w : Widget) :
    (annotateDie w).classes = addClass w.classes HtmlClass.FudgeDie := rfl

theorem scanSelected_annotateDie (w : Widget) :
    scanSelected (annotateDie w) = false := by
  simp only [scanSelected, annotateDie_classes]
  simp [mem_addClass]

theorem scanSelected_scanStep (w : Widget) :
    scanSelected (scanStep w) = false := by
  by_cases h : scanSelected w = true
  · have hf : HtmlClass.FudgeDie ∉ w.classes := by
      simp only [scanSelected, Bool.and_eq_true, Bool.not_eq_true'] at h
      simpa using h.2
    simp [scanStep, h, processDie, hf, scanSelected_annotateDie]
  · simp only [Bool.not_eq_true] at h
    simp [scanStep, h]

theorem scanStep_idem (w : Widget) : scanStep (scanStep w) = scanStep w := by
  have h := scanSelected_scanStep w
  simp only [scanStep]
  rw [if_neg]
  simp [scanStep] at h ⊢
  simp [h]

/-- C1: the annotation pass is idempotent — scanning twice equals
scanning once, and after one pass no widget matches the selector any
more. -/
theorem scan_idempotent (dom : List Widget) :
    scanList (scanList dom) = scanList dom ∧
    ∀ w ∈ scanList dom, scanSelected w = false := by
  constructor
  · simp only [scanList, List.map_map]
    induction dom with
    | nil => rfl
    | cons a l ih => simp_all [scanStep_idem]
  · intro w hw
    obtain ⟨x, _, rfl⟩ := List.mem_map.mp hw
    exact scanSelected_scanStep x

/-- C1 witness: idempotence on a concrete one-widget document, and the
processed widget it produces is no longer selected. -/
theorem scan_idempotent_witness :
    scanList (scanList [dieOne]) = scanList [dieOne] ∧
    scanSelected (annotateDie dieOne) = false :=
  ⟨(scan_idempotent [dieOne]).1,
   (scan_idempotent [dieOne]).2 (annotateDie dieOne) (by decide)⟩

/-- C3: one pass over a container with unprocessed dice showing 1 and 6
pips and an already-marked die showing 3 pips.  Both unprocessed dice
end up with the processed marker, the raw pip-count attribute (an
integer in 0–6), the derived outcome attribute `-1` resp. `1`, and
exactly one appended overlay holding the outcome glyph and the tooltip
"Rolled N"; the already-marked die is left completely unchanged. -/
theorem scan_end_to_end :
    scanList [dieOne, dieSix, dieMarkedThree] =
      [{ classes := ["six-sided-die", HtmlClass.FudgeDie], dots := ["•"],
         attrs := [(HtmlClass.DataD6Score, "1"), (HtmlAttribute.DataFudgeScore, "-1")],
         overlays := [{ symbolHtml := "&minus;", title := "Rolled 1" }] },
       { classes := ["six-sided-die", HtmlClass.FudgeDie], dots := ["•", "•", "•", "•", "•", "•"],
         attrs := [(HtmlClass.DataD6Score, "6"), (HtmlAttribute.DataFudgeScore, "1")],
         overlays := [{ symbolHtml := "&plus;", title := "Rolled 6" }] },
       dieMarkedThree] ∧
    countPips dieOne = 1 ∧ countPips dieSix = 6 ∧
    getAttr (annotateDie dieOne).attrs HtmlAttribute.DataFudgeScore = some (toString FudgeScore.Minus) ∧
    getAttr (annotateDie dieSix).attrs HtmlAttribute.DataFudgeScore = some (toString FudgeScore.Plus) ∧
    getAttr (annotateDie dieOne).attrs HtmlClass.DataD6Score = some (toString (countPips dieOne)) ∧
    getAttr (annotateDie dieSix).attrs HtmlClass.DataD6Score = some (toString (countPips dieSix)) ∧
    (annotateDie dieOne).overlays.length = 1 ∧
    (annotateDie dieSix).overlays.length = 1 ∧
    scanStep dieMarkedThree = dieMarkedThree := by
  decide

theorem debounceRun_burst (wait : Nat) (ts : List Nat) : ∀ t d : Nat, t ≤ d →
    burstCalls wait (t :: ts) = true →
    debounceRun wait (some d) (t :: ts) = [(t :: ts).getLast (List.cons_ne_nil t ts) + wait] := by
  induction ts with
  | nil =>
    intro t d hd _
    simp [debounceRun, Nat.not_lt.mpr hd]
  | cons u rest ih =>
    intro t d hd hb
    simp only [burstCalls, Bool.and_eq_true, decide_eq_true_eq] at hb
    obtain ⟨⟨_, hu⟩, hb'⟩ := hb
    have hstep : debounceRun wait (some d) (t :: u :: rest) =
        debounceRun wait (some (t + wait)) (u :: rest) := by
      simp [debounceRun, Nat.not_lt.mpr hd]
    rw [hstep, ih u (t + wait) hu hb']
    simp [List.getLast_cons]

theorem burst_le_getLast (wait : Nat) (ts : List Nat) : ∀ t : Nat,
    burstCalls wait (t :: ts) = true →
    ∀ u ∈ t :: ts, u ≤ (t :: ts).getLast (List.cons_ne_nil t ts) := by
  induction ts with
  | nil =>
    intro t _ u hu
    simp at hu
    simp [hu]
  | cons v rest ih =>
    intro t hb u hu
    simp only [burstCalls, Bool.and_eq_true, decide_eq_true_eq] at hb
    obtain ⟨⟨htv, _⟩, hb'⟩ := hb
    rw [List.getLast_cons (List.cons_ne_nil v rest)]
    rcases List.mem_cons.mp hu with rfl | hu'
    · exact le_trans (le_of_lt htv) (ih v hb' v (List.mem_cons_self v rest))
    · exact ih v hb' u hu'

theorem debounceRun_spaced_length (wait : Nat) (ts : List Nat) : ∀ t d : Nat, d < t →
    spacedCalls wait (t :: ts) = true →
    (debounceRun wait (some d) (t :: ts)).length = (t :: ts).length + 1 := by
  induction ts with
  | nil =>
    intro t d hd _
    simp [debounceRun, hd]
  | cons u rest ih =>
    intro t d hd hsp
    simp only [spacedCalls, Bool.and_eq_true, decide_eq_true_eq] at hsp
    obtain ⟨hu, hsp'⟩ := hsp
    have hstep : debounceRun wait (some d) (t :: u :: rest) =
        d :: debounceRun wait (some (t + wait)) (u :: rest) := by
      simp [debounceRun, hd]
    rw [hstep]
    simp only [List.length_cons]
    rw [ih u (t + wait) hu hsp']
    simp

/-- C4: trailing-edge debounce behaviour of the scan trigger.  For a
burst — every call within the window of its predecessor — exactly one
downstream invocation fires, strictly after every call of the burst;
for calls each spaced beyond the window, one invocation fires per
call. -/
theorem debounce_coalescing (wait : Nat) (t : Nat) (ts : List Nat) (hw : 0 < wait) :
    (burstCalls wait (t :: ts) = true →
      debounceFires wait (t :: ts) = [(t :: ts).getLast (List.cons_ne_nil t ts) + wait] ∧
      ∀ u ∈ t :: ts, u < (t :: ts).getLast (List.cons_ne_nil t ts) + wait) ∧
    (spacedCalls wait (t :: ts) = true →
      (debounceFires wait (t :: ts)).length = (t :: ts).length) := by
  constructor
  · intro hb
    constructor
    · cases ts with
      | nil => simp [debounceFires, debounceRun]
      | cons u rest =>
        simp only [burstCalls, Bool.and_eq_true, decide_eq_true_eq] at hb
        obtain ⟨⟨_, hu⟩, hb'⟩ := hb
        have hstep : debounceFires wait (t :: u :: rest) =
            debounceRun wait (some (t + wait)) (u :: rest) := by
          simp [debounceFires, debounceRun]
        rw [hstep, debounceRun_burst wait rest u (t + wait) hu hb']
        simp [List.getLast_cons]
    · intro u hu
      have hle := burst_le_getLast wait ts t hb u hu
      omega
  · intro hsp
    cases ts with
    | nil => simp [debounceFires, debounceRun]
    | cons u rest =>
      simp only [spacedCalls, Bool.and_eq_true, decide_eq_true_eq] at hsp
      obtain ⟨hu, hsp'⟩ := hsp
      have hstep : debounceFires wait (t :: u :: rest) =
          debounceRun wait (some (t + wait)) (u :: rest) := by
        simp [debounceFires, debounceRun]
      rw [hstep, debounceRun_spaced_length wait rest u (t + wait) hu hsp']
      simp

/-- C4 witness: with the script's 50 ms window, the burst 0, 30, 60
produces the single fire time 110, and the spaced calls 0, 100, 200
produce three fires. -/
theorem debounce_coalescing_witness :
    debounceFires 50 [0, 30, 60] = [110] ∧
    (debounceFires 50 [0, 100, 200]).length = 3 :=
  ⟨((debounce_coalescing 50 0 [30, 60] (by decide)).1 (by decide)).1,
   (debounce_coalescing 50 0 [100, 200] (by decide)).2 (by decide)⟩

/-- C7: saving a configuration and then loading it restores every field,
whatever the in-memory fallback state at load time. -/
theorem config_save_load_roundtrip (c mem : UserConfigState) :
    UserConfig.load mem (UserConfig.save c) = c ∧
    (UserConfig.load mem (UserConfig.save c)).useColors = c.useColors ∧
    (UserConfig.load mem (UserConfig.save c)).plusColor = c.plusColor ∧
    (UserConfig.load mem (UserConfig.save c)).minusColor = c.minusColor ∧
    (UserConfig.load mem (UserConfig.save c)).rooms = c.rooms :=
  ⟨rfl, rfl, rfl, rfl, rfl⟩

/-- C8: the default room set is duplicate-free, both mutating
operations preserve freedom from duplicates, activating an
already-active room is a no-op, and deactivating a non-member room is a
no-op. -/
theorem room_set_operations (c : UserConfigState) (r : String) (h : c.rooms.Nodup) :
    UserConfig.defaultConfig.rooms.Nodup ∧
    (UserConfig.activateRoom c r).rooms.Nodup ∧
    (UserConfig.deactivateRoom c r).rooms.Nodup ∧
    (r ∈ c.rooms → UserConfig.activateRoom c r = c) ∧
    (r ∉ c.rooms → UserConfig.deactivateRoom c r = c) := by
  refine ⟨by decide, ?_, ?_, ?_, ?_⟩
  · unfold UserConfig.activateRoom UserConfig.isActiveHere
    split
    · exact h
    · next hcon =>
      have hr : r ∉ c.rooms := by simpa using hcon
      simp [List.nodup_append, h, hr]
  · exact h.filter _
  · intro hm
    simp [UserConfig.activateRoom, UserConfig.isActiveHere, hm]
  · intro hm
    have hfix : c.rooms.filter (fun id => id != r) = c.rooms := by
      apply List.filter_eq_self.mpr
      intro a ha
      simp only [bne_iff_ne, ne_eq, decide_eq_true_eq]
      exact fun hEq => hm (hEq ▸ ha)
    simp [UserConfig.deactivateRoom, hfix]

/-- C8 witness: activating the already-active default room "8403" and
deactivating the non-member room "999" both leave the default
configuration unchanged. -/
theorem room_set_operations_witness :
    UserConfig.activateRoom UserConfig.defaultConfig "8403" = UserConfig.defaultConfig ∧
    UserConfig.deactivateRoom UserConfig.defaultConfig "999" = UserConfig.defaultConfig :=
  ⟨(room_set_operations UserConfig.defaultConfig "8403" (by decide)).2.2.2.1 (by decide),
   (room_set_operations UserConfig.defaultConfig "999" (by decide)).2.2.2.2 (by decide)⟩

theorem find?_map_replace (k v : String) : ∀ attrs : List (String × String),
    attrs.any (fun p => p.1 == k) = true →
    (attrs.map (fun p => if p.1 == k then (k, v) else p)).find? (fun p => p.1 == k) =
      some (k, v) := by
  intro attrs
  induction attrs with
  | nil => intro hany; simp at hany
  | cons p rest ih =>
    intro hany
    by_cases hp : (p.1 == k) = true
    · simp only [List.map_cons, if_pos hp]
      rw [@List.find?_cons_of_pos _ (fun q => q.1 == k) (k, v) _ (by simp)]
    · simp only [List.any_cons, Bool.or_eq_true] at hany
      rcases hany with hh | hh
      · exact absurd hh hp
      · simp only [List.map_cons, if_neg hp]
        rw [@List.find?_cons_of_neg _ (fun q => q.1 == k) p _ hp]
        exact ih hh

theorem find?_append_not_found (k v : String) : ∀ attrs : List (String × String),
    attrs.any (fun p => p.1 == k) = false →
    (attrs ++ [(k, v)]).find? (fun p => p.1 == k) = some (k, v) := by
  intro attrs
  induction attrs with
  | nil =>
    intro _
    rw [List.nil_append, @List.find?_cons_of_pos _ (fun q => q.1 == k) (k, v) _ (by simp)]
  | cons p rest ih =>
    intro hany
    simp only [List.any_cons, Bool.or_eq_false_iff] at hany
    rw [List.cons_append, @List.find?_cons_of_neg _ (fun q => q.1 == k) p _ (by simp [hany.1])]
    exact ih hany.2

theorem getAttr_setAttr_self (attrs : List (String × String)) (k v : String) :
    getAttr (setAttr attrs k v) k = some v := by
  unfold setAttr getAttr
  split
  · next hany => rw [find?_map_replace k v attrs hany]; rfl
  · next hany => rw [find?_append_not_found k v attrs (by rwa [Bool.not_eq_true] at hany)]; rfl

theorem find?_map_replace_ne (k k' v : String) (hne : (k' == k) = false) :
    ∀ attrs : List (String × String),
    (attrs.map (fun p => if p.1 == k' then (k', v) else p)).find? (fun p => p.1 == k) =
      attrs.find? (fun p => p.1 == k) := by
  intro attrs
  induction attrs with
  | nil => rfl
  | cons p rest ih =>
    by_cases hp : (p.1 == k') = true
    · have hpk : (p.1 == k) = false := by
        have hp1 : p.1 = k' := by simpa using hp
        simpa [hp1] using hne
      simp only [List.map_cons, if_pos hp]
      rw [@List.find?_cons_of_neg _ (fun q => q.1 == k) (k', v) _ (by simp [hne]),
        @List.find?_cons_of_neg _ (fun q => q.1 == k) p _ (by simp [hpk])]
      exact ih
    · simp only [List.map_cons, if_neg hp]
      by_cases hpk : (p.1 == k) = true
      · rw [@List.find?_cons_of_pos _ (fun q => q.1 == k) p _ hpk,
          @List.find?_cons_of_pos _ (fun q => q.1 == k) p _ hpk]
      · rw [@List.find?_cons_of_neg _ (fun q => q.1 == k) p _ hpk,
          @List.find?_cons_of_neg _ (fun q => q.1 == k) p _ hpk]
        exact ih

theorem getAttr_setAttr_ne (attrs : List (String × String)) (k k' v : String)
    (hne : (k' == k) = false) :
    getAttr (setAttr attrs k' v) k = getAttr attrs k := by
  unfold setAttr getAttr
  split
  · rw [find?_map_replace_ne k k' v hne attrs]
  · rw [List.find?_append]
    have hsingle : ([(k', v)].find? (fun p => p.1 == k)) = none := by
      rw [@List.find?_cons_of_neg _ (fun q => q.1 == k) (k', v) _ (by simp [hne])]
      rfl
    rw [hsingle]
    cases attrs.find? (fun p => p.1 == k) <;> rfl

theorem annotateDie_attrs (w : Widget) :
    (annotateDie w).attrs =
      setAttr (setAttr w.attrs HtmlClass.DataD6Score (toString (countPips w)))
        HtmlAttribute.DataFudgeScore (toString (FudgeUtil.d6toFudge (countPips w))) := rfl

theorem annotateDie_overlays (w : Widget) :
    (annotateDie w).overlays =
      w.overlays ++
        [⟨FudgeUtil.displayScore (FudgeUtil.d6toFudge (countPips w)),
          "Rolled " ++ toString (countPips w)⟩] := rfl

/-- C9: a die widget whose dot markup is malformed — every dot text
lacking the pip character, which covers missing or zero dot markers —
classifies as pip count 0, and the pass processes it normally: the
total function `scanStep` annotates it with pip count "0", outcome
"-1" and the Minus overlay, throwing nothing. -/
theorem malformed_widget_degrades (w : Widget)
    (hmal : ∀ text ∈ w.dots, includesBullet text = false) :
    countPips w = 0 ∧
    scanList [w] = [scanStep w] ∧
    getAttr (annotateDie w).attrs HtmlClass.DataD6Score = some "0" ∧
    getAttr (annotateDie w).attrs HtmlAttribute.DataFudgeScore = some "-1" ∧
    (annotateDie w).overlays =
      w.overlays ++ [{ symbolHtml := "&minus;", title := "Rolled 0" }] := by
  have h0 : countPips w = 0 := by
    rw [countPips, List.length_eq_zero, List.filter_eq_nil_iff]
    intro a ha
    simp [hmal a ha]
  refine ⟨h0, rfl, ?_, ?_, ?_⟩
  · rw [annotateDie_attrs, h0, getAttr_setAttr_ne _ _ _ _ (by decide), getAttr_setAttr_self]
    decide
  · rw [annotateDie_attrs, h0, getAttr_setAttr_self]
    decide
  · have hov : (⟨FudgeUtil.displayScore (FudgeUtil.d6toFudge ((0 : Nat) : Int)),
        "Rolled " ++ toString (0 : Nat)⟩ : Overlay) =
        ⟨"&minus;", "Rolled 0"⟩ := by decide
    rw [annotateDie_overlays, h0, hov]

/-- C9 witness: the malformed-widget theorem applied to a die whose two
dots hold stray text and an empty string. -/
theorem malformed_widget_degrades_witness :
    countPips dieMalformed = 0 ∧
    scanList [dieMalformed] = [scanStep dieMalformed] ∧
    getAttr (annotateDie dieMalformed).attrs HtmlClass.DataD6Score = some "0" ∧
    getAttr (annotateDie dieMalformed).attrs HtmlAttribute.DataFudgeScore = some "-1" ∧
    (annotateDie dieMalformed).overlays =
      dieMalformed.overlays ++ [{ symbolHtml := "&minus;", title := "Rolled 0" }] :=
  malformed_widget_degrades dieMalformed (by decide)

theorem scanStep_die_marked (w : Widget)
    (hdie : (scanStep w).classes.contains "six-sided-die" = true) :
    (scanStep w).classes.contains HtmlClass.FudgeDie = true := by
  have h := scanSelected_scanStep w
  unfold scanSelected at h
  rw [hdie] at h
  simpa using h

/-- C5 counterexample: the claim that a pass transforms only widgets
under the root container fails — for a document whose only unprocessed
die widget sits outside the root container, the pass still transforms
it (the scan queries `document.querySelectorAll`, document-wide). -/
theorem scan_transforms_outside_root :
    (scanDocument { rootWidgets := [], outsideWidgets := [dieOne] }).outsideWidgets ≠ [dieOne] ∧
    (scanDocument { rootWidgets := [], outsideWidgets := [dieOne] }).outsideWidgets =
      [annotateDie dieOne] := by
  constructor
  · decide
  · decide

/-- C5 (amended): the annotation pass runs over the whole document —
after one pass every die widget, under the root container or elsewhere,
carries the processed marker — and if the root container cannot be
found at initialization, startup fails with the surfaced error
`Failed to initialise ChatService`. -/
theorem scan_document_wide_init_error (d : ChatDocument) :
    (∀ w ∈ (scanDocument d).rootWidgets, w.classes.contains "six-sided-die" = true →
      w.classes.contains HtmlClass.FudgeDie = true) ∧
    (∀ w ∈ (scanDocument d).outsideWidgets, w.classes.contains "six-sided-die" = true →
      w.classes.contains HtmlClass.FudgeDie = true) ∧
    chatServiceInit none = Except.error "Failed to initialise ChatService" := by
  refine ⟨?_, ?_, rfl⟩
  · intro w hw hdie
    simp only [scanDocument, scanList] at hw
    obtain ⟨x, _, rfl⟩ := List.mem_map.mp hw
    exact scanStep_die_marked x hdie
  · intro w hw hdie
    simp only [scanDocument, scanList] at hw
    obtain ⟨x, _, rfl⟩ := List.mem_map.mp hw
    exact scanStep_die_marked x hdie

/-- C5 witness: the amended theorem applied to a concrete document with
one die under the root and one die outside it, and to the missing-root
initialization. -/
theorem scan_document_wide_init_error_witness :
    (annotateDie dieSix).classes.contains HtmlClass.FudgeDie = true ∧
    chatServiceInit none = Except.error "Failed to initialise ChatService" :=
  ⟨(scan_document_wide_init_error ⟨[dieOne], [dieSix]⟩).2.1 (annotateDie dieSix)
      (by decide) (by decide),
   (scan_document_wide_init_error ⟨[], []⟩).2.2⟩

/-- C6: evaluation of the live-scan control flow at the failing input —
one mutation notification, then the debounce timer fires and the scan
throws.  The try/catch in the observer callback wraps only the
synchronous debounce wrapper, which cannot throw; the scan's exception
is raised later, in the timer callback, outside that handler.  So the
observer stays connected, the catch handler reports nothing, and the
exception escapes uncaught — contradicting the containment the spec
describes (and the code's own catch-handler message). -/
theorem live_scan_fault_not_contained :
    (timerFire true (observerCallback initialLiveScanState)).connected = true ∧
    (timerFire true (observerCallback initialLiveScanState)).errorReports = 0 ∧
    (timerFire true (observerCallback initialLiveScanState)).uncaughtException = true :=
  ⟨rfl, rfl, rfl⟩
